import Mathlib

/-!
# Account service of go-backend-touch-calc, shallowly embedded

This file embeds the account service `internal/auth` (the Go file with
`UserExists`, `GetUser`, `CreateUser`, `AuthenticateUser`,
`UpdatePassword`, `SetUserDongle`, `GetUserDongle`, `ConfirmUser`,
`DeleteUser`, `setUser`, `ValidateEmail`) together with a model of the
path store and of the user model it is written against.  The `storage`
and `models` packages are not part of the provided sources; they are
modelled from the specification (path store contract of §4.1, user
account record of §3) and each such definition is marked
`Modelled from the spec:` in its doc comment.

Every service operation is embedded in an instrumented style: it
returns its result, the store it leaves behind, and the list of store
primitives it invoked, so that read-only behaviour (frame properties)
is provable, not definitional hand-waving.
-/

namespace TouchCalc

/-- A path: an ordered list of string segments (spec §3). -/
abbrev Path := List String

/-- Modelled from the spec: the user account record of the missing
`models` package (§3): immutable email used as the lookup key, a
password credential stored as a hash, a confirmed flag that defaults
to `false` at creation, and a mutable device-binding token
("dongle"). -/
structure User where
  email : String
  passwordHash : String
  confirmed : Bool
  dongle : String
deriving DecidableEq, Repr

/-- Modelled from the spec: password hashing of the missing `models`
package.  The spec only requires that the stored credential is a hash
the plaintext can later be verified against (§3), so hashing is
modelled as an injective tagging function. -/
def hashPassword (password : String) : String := "hash:" ++ password

/-- Modelled from the spec: `models.User.Authenticate` — whether the
supplied password verifies against the stored hash (§4.2). -/
def User.Authenticate (u : User) (password : String) : Bool :=
  u.passwordHash == hashPassword password

/-- `models.User.GetConfirmed`: read the confirmed flag. -/
def User.GetConfirmed (u : User) : Bool := u.confirmed

/-- Modelled from the spec: `models.User.SetConfirmed` — confirmation
sets the flag to true (one-way per §3's lifecycle). -/
def User.SetConfirmed (u : User) : User := { u with confirmed := true }

/-- `models.User.SetDongle`: replace the device-binding token. -/
def User.SetDongle (u : User) (dongle : String) : User := { u with dongle := dongle }

/-- `models.User.GetDongle`: read the device-binding token. -/
def User.GetDongle (u : User) : String := u.dongle

/-- Modelled from the spec: `models.User.SetPassword` replaces the
stored hash.  The Go call returns an error; per the validation rules
of §4.2 ("empty or malformed ... password") an empty password is
rejected, any other password is hashed and stored. -/
def User.SetPassword (u : User) (password : String) : Except Unit User :=
  if password = "" then .error ()
  else .ok { u with passwordHash := hashPassword password }

/-- `ValidateEmail` from the source (`strings.Contains(email, "@") &&
len(email) > 3`).  Go `len` is the UTF-8 byte length and
`strings.Contains` with the one-byte needle `"@"` holds exactly when
the character occurs somewhere in the string. -/
def ValidateEmail (email : String) : Bool :=
  email.contains '@' && decide (email.utf8ByteSize > 3)

/-- Modelled from the spec: file payloads of the path store (§3,
"opaque serializable value").  The service stores `user.ToJSON()`
strings; since the serialization format must round-trip every field
exactly (§8), the serialized record of `u` is represented as
`userRec u`.  `rawStr` stands for a string payload that does not
parse as a user record, `nonString` for a payload that is not a
string at all (Go `interface\x7b\x7d` data failing the string assertion). -/
inductive FileData where
  | userRec (u : User)
  | rawStr (s : String)
  | nonString
deriving DecidableEq, Repr

/-- Modelled from the spec: `models.User.ToJSON` serializes the
record (total here: the spec assigns it no failure mode, and the Go
error branch for it is unreachable for this fixed field set). -/
def User.ToJSON (u : User) : FileData := .userRec u

/-- Modelled from the spec: the error classification of the path
store contract (§4.1, §7). -/
inductive StorageError where
  | notFound
  | alreadyExists
  | parentMissing
  | backendUnavailable
deriving DecidableEq, Repr

/-- Modelled from the spec: a tree node — directory or file (§3). -/
inductive Node where
  | dir
  | file (data : FileData)
deriving DecidableEq, Repr

/-- Modelled from the spec: a Stored Item — resolved path plus
payload (§3). -/
structure Item where
  path : Path
  data : FileData
deriving DecidableEq, Repr

/-- Modelled from the spec: the path store state — a virtual tree
(partial map from paths to nodes) plus a transport/engine failure
flag so that `BackendUnavailable` outcomes are representable
(§4.1: backend failures occur "only on transport/engine failure"). -/
structure Store where
  broken : Bool
  node : Path → Option Node

/-- Point update of the tree map. -/
def Store.set (st : Store) (p : Path) (n : Option Node) : Store :=
  { st with node := fun q => if q = p then n else st.node q }

/-- Whether the parent directory of `p` exists (the root, the empty
sequence, always exists; spec §3). -/
def Store.parentOk (st : Store) (p : Path) : Bool :=
  decide (p.dropLast = []) || decide (st.node p.dropLast = some .dir)

/-- Modelled from the spec: `getFile` (§4.1) — returns the Stored
Item on success, the distinguished `NotFound` outcome if no file
exists at the path (a directory is not a file), `BackendUnavailable`
on engine failure.  In Go this is the sentinel `storage.ErrNotFound`. -/
def Store.GetFile (st : Store) (p : Path) : Except StorageError Item :=
  if st.broken then .error .backendUnavailable
  else
    match st.node p with
    | some (.file d) => .ok ⟨p, d⟩
    | some .dir => .error .notFound
    | none => .error .notFound

/-- Modelled from the spec: `createDirectory` (§4.1) — idempotent
(already-present directory is a no-op), created one level at a time
(the reference behaviour), cannot displace a file. -/
def Store.CreateDir (st : Store) (p : Path) : Except StorageError Store :=
  if st.broken then .error .backendUnavailable
  else
    match st.node p with
    | some .dir => .ok st
    | some (.file _) => .error .alreadyExists
    | none =>
      if st.parentOk p then .ok (st.set p (some .dir))
      else .error .parentMissing

/-- Modelled from the spec: `createFile` (§4.1) — `AlreadyExists` if
any node occupies the path, `ParentMissing` if the parent directory
is absent, otherwise stores the payload. -/
def Store.CreateFile (st : Store) (p : Path) (d : FileData) : Except StorageError Store :=
  if st.broken then .error .backendUnavailable
  else
    match st.node p with
    | some _ => .error .alreadyExists
    | none =>
      if st.parentOk p then .ok (st.set p (some (.file d)))
      else .error .parentMissing

/-- Modelled from the spec: `updateFile` (§4.1) — `NotFound` if no
file exists at the path, otherwise replaces the payload. -/
def Store.UpdateFile (st : Store) (p : Path) (d : FileData) : Except StorageError Store :=
  if st.broken then .error .backendUnavailable
  else
    match st.node p with
    | some (.file _) => .ok (st.set p (some (.file d)))
    | _ => .error .notFound

/-- Modelled from the spec: `deleteFile` (§4.1) — `NotFound` if no
file exists at the path, otherwise removes it, leaving every other
node alone. -/
def Store.DeleteFile (st : Store) (p : Path) : Except StorageError Store :=
  if st.broken then .error .backendUnavailable
  else
    match st.node p with
    | some (.file _) => .ok (st.set p none)
    | _ => .error .notFound

/-- The domain-level error outcomes of the account service.  The Go
code produces them as `fmt.Errorf` values or propagates (possibly
wrapped with a message prefix, which `errors.Is` ignores) the
underlying storage error; `storage e` stands for a propagated
storage error. -/
inductive AuthError where
  | storage (e : StorageError)
  | userNotFound
  | invalidUserDataFormat
  | invalidUserData
  | userNotConfirmed
  | userAlreadyExists
  | userCreationFailed
  | userDoesNotExist
  | invalidNewPassword
deriving DecidableEq, Repr

/-- Trace events: which store primitive a service operation invoked,
and on which path. -/
inductive Op where
  | getFile (p : Path)
  | createDir (p : Path)
  | createFile (p : Path)
  | updateFile (p : Path)
  | deleteFile (p : Path)
deriving DecidableEq, Repr

/-- Is the event a read (`getFile`)? -/
def Op.isGet : Op → Bool
  | .getFile _ => true
  | _ => false

/-- Result of an instrumented service operation: domain result, the
store left behind, and the trace of store primitives invoked. -/
structure Out (α : Type) where
  res : Except AuthError α
  store : Store
  trace : List Op

/-- `getUserPath` from the source: `["home", UserDir, email]` with
`UserDir = "users"`. -/
def getUserPath (email : String) : Path := ["home", "users", email]

/-- `UserExists` from the source: `GetFile` on the user path;
`ErrNotFound` gives `false` without error, any other error
propagates, success gives `item != nil` (always true here: a
successful modelled `getFile` always carries an item). -/
def UserExists (st : Store) (email : String) : Out Bool :=
  let path := getUserPath email
  match st.GetFile path with
  | .error .notFound => ⟨.ok false, st, [.getFile path]⟩
  | .error e => ⟨.error (.storage e), st, [.getFile path]⟩
  | .ok _item => ⟨.ok true, st, [.getFile path]⟩

/-- `GetUser` from the source: `GetFile` on the user path, any error
propagated unchanged (in particular `ErrNotFound` for an absent
user); then the payload is asserted to be a string (failure:
`"invalid user data format"`) and parsed by `UserFromJSON` (failure
propagated; modelled as `invalidUserData`).  The Go branch returning
`"user not found"` for a nil item with nil error is unreachable
against the modelled store, whose successful `getFile` always
carries an item. -/
def GetUser (st : Store) (email : String) : Out User :=
  let path := getUserPath email
  match st.GetFile path with
  | .error e => ⟨.error (.storage e), st, [.getFile path]⟩
  | .ok item =>
    match item.data with
    | .userRec u => ⟨.ok u, st, [.getFile path]⟩
    | .rawStr _ => ⟨.error .invalidUserData, st, [.getFile path]⟩
    | .nonString => ⟨.error .invalidUserDataFormat, st, [.getFile path]⟩

/-- Modelled from the spec: `models.NewUser` — constructs a fresh
account (confirmed = false, hashed password, empty dongle); fails on
an empty or malformed email/password per the validation rules
(§4.2). -/
def NewUser (email password : String) : Except Unit User :=
  if ValidateEmail email && !(password == "") then
    .ok ⟨email, hashPassword password, false, ""⟩
  else .error ()

/-- `CreateUser` from the source: existence check (errors wrapped,
`true` gives `"user already exists"`), model construction (failure
wrapped as `"error creating user model"`), then `CreateDir "home"`,
`CreateDir "home/users"`, serialization (total in the model, the Go
error branch being unreachable), and `CreateFile` on the user path,
each storage failure propagated. -/
def CreateUser (st : Store) (email password : String) : Out Unit :=
  match UserExists st email with
  | ⟨.error e, st1, tr⟩ => ⟨.error e, st1, tr⟩
  | ⟨.ok true, st1, tr⟩ => ⟨.error .userAlreadyExists, st1, tr⟩
  | ⟨.ok false, st1, tr⟩ =>
    match NewUser email password with
    | .error _ => ⟨.error .userCreationFailed, st1, tr⟩
    | .ok user =>
      match st1.CreateDir ["home"] with
      | .error e => ⟨.error (.storage e), st1, tr ++ [.createDir ["home"]]⟩
      | .ok st2 =>
        match st2.CreateDir ["home", "users"] with
        | .error e =>
          ⟨.error (.storage e), st2, tr ++ [.createDir ["home"], .createDir ["home", "users"]]⟩
        | .ok st3 =>
          let path := getUserPath email
          match st3.CreateFile path user.ToJSON with
          | .error e =>
            ⟨.error (.storage e), st3,
              tr ++ [.createDir ["home"], .createDir ["home", "users"], .createFile path]⟩
          | .ok st4 =>
            ⟨.ok (), st4,
              tr ++ [.createDir ["home"], .createDir ["home", "users"], .createFile path]⟩

/-- `AuthenticateUser` from the source: loads the account (errors
propagated), fails with `"user not confirmed"` if the confirmed flag
is false, otherwise returns `user.Authenticate(password)` with no
error. -/
def AuthenticateUser (st : Store) (email password : String) : Out Bool :=
  match GetUser st email with
  | ⟨.error e, st1, tr⟩ => ⟨.error e, st1, tr⟩
  | ⟨.ok user, st1, tr⟩ =>
    if user.GetConfirmed then ⟨.ok (user.Authenticate password), st1, tr⟩
    else ⟨.error .userNotConfirmed, st1, tr⟩

/-- `setUser` from the source: serialize (total in the model) and
`UpdateFile` at the user's path, storage errors propagated. -/
def setUser (st : Store) (user : User) : Out Unit :=
  let path := getUserPath user.email
  match st.UpdateFile path user.ToJSON with
  | .error e => ⟨.error (.storage e), st, [.updateFile path]⟩
  | .ok st1 => ⟨.ok (), st1, [.updateFile path]⟩

/-- `UpdatePassword` from the source: load (errors propagated),
`SetPassword` (error propagated), persist via `setUser`. -/
def UpdatePassword (st : Store) (email newPassword : String) : Out Unit :=
  match GetUser st email with
  | ⟨.error e, st1, tr⟩ => ⟨.error e, st1, tr⟩
  | ⟨.ok user, st1, tr⟩ =>
    match user.SetPassword newPassword with
    | .error _ => ⟨.error .invalidNewPassword, st1, tr⟩
    | .ok user1 =>
      let r := setUser st1 user1
      ⟨r.res, r.store, tr ++ r.trace⟩

/-- `SetUserDongle` from the source: load (errors propagated), set
the token, persist via `setUser`. -/
def SetUserDongle (st : Store) (email dongle : String) : Out Unit :=
  match GetUser st email with
  | ⟨.error e, st1, tr⟩ => ⟨.error e, st1, tr⟩
  | ⟨.ok user, st1, tr⟩ =>
    let r := setUser st1 (user.SetDongle dongle)
    ⟨r.res, r.store, tr ++ r.trace⟩

/-- `GetUserDongle` from the source: load (errors propagated, empty
string alongside), return the token. -/
def GetUserDongle (st : Store) (email : String) : Out String :=
  match GetUser st email with
  | ⟨.error e, st1, tr⟩ => ⟨.error e, st1, tr⟩
  | ⟨.ok user, st1, tr⟩ => ⟨.ok user.GetDongle, st1, tr⟩

/-- `ConfirmUser` from the source: load (errors propagated), set the
confirmed flag, persist via `setUser`. -/
def ConfirmUser (st : Store) (email : String) : Out Unit :=
  match GetUser st email with
  | ⟨.error e, st1, tr⟩ => ⟨.error e, st1, tr⟩
  | ⟨.ok user, st1, tr⟩ =>
    let r := setUser st1 user.SetConfirmed
    ⟨r.res, r.store, tr ++ r.trace⟩

/-- `DeleteUser` from the source: existence check (errors
propagated), `"user does not exist"` when absent, otherwise
`DeleteFile` at the user path. -/
def DeleteUser (st : Store) (email : String) : Out Unit :=
  match UserExists st email with
  | ⟨.error e, st1, tr⟩ => ⟨.error e, st1, tr⟩
  | ⟨.ok false, st1, tr⟩ => ⟨.error .userDoesNotExist, st1, tr⟩
  | ⟨.ok true, st1, tr⟩ =>
    let path := getUserPath email
    match st1.DeleteFile path with
    | .error e => ⟨.error (.storage e), st1, tr ++ [.deleteFile path]⟩
    | .ok st2 => ⟨.ok (), st2, tr ++ [.deleteFile path]⟩

/-- A single account-service invocation, used to state properties
quantified over the whole service surface. -/
inductive Action where
  | createUser (email password : String)
  | authenticateUser (email password : String)
  | updatePassword (email newPassword : String)
  | setUserDongle (email dongle : String)
  | getUserDongle (email : String)
  | confirmUser (email : String)
  | deleteUser (email : String)
  | userExists (email : String)
  | getUser (email : String)

/-- The store an invocation leaves behind. -/
def Action.run (a : Action) (st : Store) : Store :=
  match a with
  | .createUser e p => (CreateUser st e p).store
  | .authenticateUser e p => (AuthenticateUser st e p).store
  | .updatePassword e p => (UpdatePassword st e p).store
  | .setUserDongle e d => (SetUserDongle st e d).store
  | .getUserDongle e => (GetUserDongle st e).store
  | .confirmUser e => (ConfirmUser st e).store
  | .deleteUser e => (DeleteUser st e).store
  | .userExists e => (UserExists st e).store
  | .getUser e => (GetUser st e).store

/-- A store is well-filed when every stored account record sits under
the user path of its own email — the layout `CreateUser` establishes
and every mutator maintains (each record is written back at
`getUserPath user.email`). -/
def WellFiled (st : Store) : Prop :=
  ∀ e u, st.node (getUserPath e) = some (.file (.userRec u)) → u.email = e

/-! ## Concrete fixtures used by witnesses -/

/-- A confirmed account. -/
def aliceConfirmed : User := ⟨"a@b.co", hashPassword "pw", true, "tok"⟩

/-- A freshly created (unconfirmed) account with the same
credentials. -/
def aliceUnconfirmed : User := ⟨"a@b.co", hashPassword "pw", false, ""⟩

/-- A healthy store holding only the `home` and `home/users`
directories. -/
def baseStore : Store :=
  { broken := false,
    node := fun p =>
      if p = ["home"] then some .dir
      else if p = ["home", "users"] then some .dir
      else none }

/-- `baseStore` with `u`'s record filed under its user path. -/
def storeWith (u : User) : Store :=
  baseStore.set (getUserPath u.email) (some (.file (.userRec u)))

/-- A store whose backend engine is down. -/
def brokenStore : Store := { broken := true, node := fun _ => none }

/-- A store holding an unparsable string record and a non-string
payload besides the usual directories. -/
def corruptStore : Store :=
  { baseStore with
    node := fun p =>
      if p = getUserPath "bad@x.co" then some (.file (.rawStr "junk"))
      else if p = getUserPath "odd@x.co" then some (.file .nonString)
      else baseStore.node p }

/-! ## Basic store lemmas -/

@[simp]
theorem Store.node_set (st : Store) (p q : Path) (n : Option Node) :
    (st.set p n).node q = if q = p then n else st.node q := rfl

@[simp]
theorem Store.broken_set (st : Store) (p : Path) (n : Option Node) :
    (st.set p n).broken = st.broken := rfl

/-- A successful `UpdateFile` is exactly a point overwrite of the
file payload. -/
theorem Store.updateFile_ok {st st2 : Store} {p : Path} {d : FileData}
    (h : st.UpdateFile p d = .ok st2) : st2 = st.set p (some (.file d)) := by
  unfold Store.UpdateFile at h
  split at h
  · cases h
  · split at h <;> simp_all

/-- A successful `DeleteFile` is exactly a point removal. -/
theorem Store.deleteFile_ok {st st2 : Store} {p : Path}
    (h : st.DeleteFile p = .ok st2) : st2 = st.set p none := by
  unfold Store.DeleteFile at h
  split at h
  · cases h
  · split at h <;> simp_all

/-- A successful `CreateDir` either found the directory already
present (no-op) or created it where nothing was. -/
theorem Store.createDir_ok {st st2 : Store} {p : Path}
    (h : st.CreateDir p = .ok st2) :
    st2 = st ∨ (st.node p = none ∧ st2 = st.set p (some .dir)) := by
  unfold Store.CreateDir at h
  split at h
  · cases h
  · split at h
    · left; simp_all
    · cases h
    · split at h
      · right; simp_all
      · cases h

/-- A successful `CreateFile` wrote the payload where nothing was. -/
theorem Store.createFile_ok {st st2 : Store} {p : Path} {d : FileData}
    (h : st.CreateFile p d = .ok st2) :
    st.node p = none ∧ st2 = st.set p (some (.file d)) := by
  unfold Store.CreateFile at h
  split at h
  · cases h
  · split at h
    · cases h
    · split at h
      · simp_all
      · cases h

/-! ## Claims -/

/-- **C1.** For every stored account whose confirmed flag is false,
`AuthenticateUser` fails with `UserNotConfirmed` regardless of
whether the supplied password is correct; for every account whose
confirmed flag is true, it returns true when the supplied password
verifies against the stored hash and false (with no error) when it
does not. -/
theorem authenticateUser_confirmGate (st : Store) (email password : String) (u : User)
    (hb : st.broken = false)
    (hf : st.node (getUserPath email) = some (.file (.userRec u))) :
    (u.confirmed = false →
      (AuthenticateUser st email password).res = .error .userNotConfirmed) ∧
    (u.confirmed = true → u.passwordHash = hashPassword password →
      (AuthenticateUser st email password).res = .ok true) ∧
    (u.confirmed = true → u.passwordHash ≠ hashPassword password →
      (AuthenticateUser st email password).res = .ok false) := by
  refine ⟨fun hc => ?_, fun hc hok => ?_, fun hc hko => ?_⟩ <;>
    simp [AuthenticateUser, GetUser, Store.GetFile, hb, hf, User.GetConfirmed, hc,
      User.Authenticate]
  · exact hok
  · exact hko

/-- Witness for C1 at concrete inputs: the unconfirmed twin is
refused with the correct password; the confirmed account
authenticates with the correct password and is denied (no error)
with a wrong one. -/
theorem authenticateUser_confirmGate_witness :
    (AuthenticateUser (storeWith aliceUnconfirmed) "a@b.co" "pw").res =
        .error .userNotConfirmed ∧
    (AuthenticateUser (storeWith aliceConfirmed) "a@b.co" "pw").res = .ok true ∧
    (AuthenticateUser (storeWith aliceConfirmed) "a@b.co" "wrong").res = .ok false :=
  ⟨(authenticateUser_confirmGate _ "a@b.co" "pw" aliceUnconfirmed rfl (by decide)).1 rfl,
   (authenticateUser_confirmGate _ "a@b.co" "pw" aliceConfirmed rfl (by decide)).2.1 rfl rfl,
   (authenticateUser_confirmGate _ "a@b.co" "wrong" aliceConfirmed rfl (by decide)).2.2 rfl
     (by decide)⟩

/-- `ValidateEmail` unfolded to the character list of the string:
acceptance is membership of '@' plus the byte-length bound. -/
theorem validateEmail_iff (email : String) :
    ValidateEmail email = true ↔ '@' ∈ email.data ∧ 3 < email.utf8ByteSize := by
  rw [ValidateEmail, Bool.and_eq_true, decide_eq_true_iff]
  exact and_congr_left fun _ => String.contains_iff email '@'

/-- **C2, counterexample.** The claim says `ValidateEmail` rejects
every string containing "@" more than once; but `"a@@b"` contains
"@" twice (and has byte length 4 > 3) and `ValidateEmail` accepts
it: the Go code tests `strings.Contains`, an at-least-once test. -/
theorem validateEmail_accepts_double_at :
    ValidateEmail "a@@b" = true ∧ "a@@b".data.count '@' = 2 :=
  ⟨(validateEmail_iff "a@@b").2 (by decide), by decide⟩

/-- **C2, amended.** `ValidateEmail` accepts a string iff it
contains the "@" character at least once (not exactly once) and its
byte length exceeds 3. -/
theorem validateEmail_spec (email : String) :
    ValidateEmail email = true ↔ '@' ∈ email.data ∧ 3 < email.utf8ByteSize :=
  validateEmail_iff email

/-- **C3.** When an account already exists at `home/users/email`, a
second `CreateUser` with that email fails with `UserAlreadyExists`
and performs no store mutation: the store it leaves behind is
exactly the input store. -/
theorem createUser_existing_noMutation (st : Store) (email password : String) (d : FileData)
    (hb : st.broken = false)
    (hf : st.node (getUserPath email) = some (.file d)) :
    (CreateUser st email password).res = .error .userAlreadyExists ∧
    (CreateUser st email password).store = st := by
  constructor <;> simp [CreateUser, UserExists, Store.GetFile, hb, hf]

/-- Witness for C3: creating `a@b.co` again over a store already
holding it fails with `UserAlreadyExists` and leaves the store
untouched. -/
theorem createUser_existing_noMutation_witness :
    (CreateUser (storeWith aliceUnconfirmed) "a@b.co" "other").res =
        .error .userAlreadyExists ∧
    (CreateUser (storeWith aliceUnconfirmed) "a@b.co" "other").store =
        storeWith aliceUnconfirmed :=
  createUser_existing_noMutation _ "a@b.co" "other" (.userRec aliceUnconfirmed) rfl
    (by decide)

/-- **C4.** `UserExists` returns false (without error) exactly when
`getFile` on `home/users/email` yields the `NotFound` outcome,
returns true whenever that `getFile` succeeds, and propagates every
other `getFile` failure unchanged. -/
theorem userExists_spec (st : Store) (email : String) :
    (st.GetFile (getUserPath email) = .error .notFound →
      (UserExists st email).res = .ok false) ∧
    (∀ item, st.GetFile (getUserPath email) = .ok item →
      (UserExists st email).res = .ok true) ∧
    (∀ e, e ≠ StorageError.notFound → st.GetFile (getUserPath email) = .error e →
      (UserExists st email).res = .error (.storage e)) ∧
    ((UserExists st email).res = .ok false →
      st.GetFile (getUserPath email) = .error .notFound) := by
  refine ⟨fun h => by simp [UserExists, h], fun item h => by simp [UserExists, h],
    fun e hne h => ?_, fun h => ?_⟩
  · cases e <;> simp_all [UserExists]
  · rcases hg : st.GetFile (getUserPath email) with e | item
    · cases e <;> simp_all [UserExists]
    · simp [UserExists, hg] at h

/-- Witness for C4: an absent user gives false, a present one true,
and a backend outage propagates as an error. -/
theorem userExists_spec_witness :
    (UserExists baseStore "a@b.co").res = .ok false ∧
    (UserExists (storeWith aliceConfirmed) "a@b.co").res = .ok true ∧
    (UserExists brokenStore "a@b.co").res = .error (.storage .backendUnavailable) :=
  ⟨(userExists_spec baseStore "a@b.co").1 rfl,
   (userExists_spec (storeWith aliceConfirmed) "a@b.co").2.1
     ⟨getUserPath "a@b.co", .userRec aliceConfirmed⟩ rfl,
   (userExists_spec brokenStore "a@b.co").2.2.1 .backendUnavailable (by decide) rfl⟩

/-- **C5.** `GetUser` fails with the not-found outcome (the
propagated `ErrNotFound` of the store, the service's user-not-found
case) when no file exists at `home/users/email`; fails with the
invalid-user-data outcomes when the stored payload cannot be
deserialized (`invalidUserDataFormat` for a non-string payload,
`invalidUserData` for a malformed record); and otherwise returns the
deserialized account. -/
theorem getUser_spec (st : Store) (email : String) (hb : st.broken = false) :
    (st.node (getUserPath email) = none →
      (GetUser st email).res = .error (.storage .notFound)) ∧
    (∀ u, st.node (getUserPath email) = some (.file (.userRec u)) →
      (GetUser st email).res = .ok u) ∧
    (∀ s, st.node (getUserPath email) = some (.file (.rawStr s)) →
      (GetUser st email).res = .error .invalidUserData) ∧
    (st.node (getUserPath email) = some (.file .nonString) →
      (GetUser st email).res = .error .invalidUserDataFormat) :=
  ⟨fun h => by simp [GetUser, Store.GetFile, hb, h],
   fun u h => by simp [GetUser, Store.GetFile, hb, h],
   fun s h => by simp [GetUser, Store.GetFile, hb, h],
   fun h => by simp [GetUser, Store.GetFile, hb, h]⟩

/-- Witness for C5: absence, a well-formed record, a malformed
string record and a non-string payload each produce the stated
outcome. -/
theorem getUser_spec_witness :
    (GetUser baseStore "a@b.co").res = .error (.storage .notFound) ∧
    (GetUser (storeWith aliceConfirmed) "a@b.co").res = .ok aliceConfirmed ∧
    (GetUser corruptStore "bad@x.co").res = .error .invalidUserData ∧
    (GetUser corruptStore "odd@x.co").res = .error .invalidUserDataFormat :=
  ⟨(getUser_spec baseStore "a@b.co" rfl).1 rfl,
   (getUser_spec (storeWith aliceConfirmed) "a@b.co" rfl).2.1 aliceConfirmed (by decide),
   (getUser_spec corruptStore "bad@x.co" rfl).2.2.1 "junk" (by decide),
   (getUser_spec corruptStore "odd@x.co" rfl).2.2.2 (by decide)⟩

/-- The modelled hash is injective: two passwords with the same
stored hash are equal. -/
theorem hashPassword_inj {a b : String} (h : hashPassword a = hashPassword b) : a = b := by
  unfold hashPassword at h
  have hd := congrArg String.data h
  simp only [String.data_append] at hd
  exact String.ext (List.append_cancel_left hd)

/-- **C6.** For a confirmed account stored under its own email,
after `UpdatePassword` to a (distinct, non-empty) new password the
old password no longer authenticates and the new one does; and after
`DeleteUser`, `UserExists` is false and `GetUser` fails with the
not-found outcome. -/
theorem updatePassword_deleteUser_spec (st : Store) (email oldPw newPw : String) (u : User)
    (hb : st.broken = false)
    (hf : st.node (getUserPath email) = some (.file (.userRec u)))
    (he : u.email = email)
    (hc : u.confirmed = true)
    (hne : newPw ≠ "")
    (hdiff : oldPw ≠ newPw) :
    (UpdatePassword st email newPw).res = .ok () ∧
    (AuthenticateUser (UpdatePassword st email newPw).store email oldPw).res = .ok false ∧
    (AuthenticateUser (UpdatePassword st email newPw).store email newPw).res = .ok true ∧
    (DeleteUser (UpdatePassword st email newPw).store email).res = .ok () ∧
    (UserExists (DeleteUser (UpdatePassword st email newPw).store email).store email).res =
        .ok false ∧
    (GetUser (DeleteUser (UpdatePassword st email newPw).store email).store email).res =
        .error (.storage .notFound) := by
  have hba : ¬hashPassword newPw = hashPassword oldPw := fun hcon =>
    hdiff (hashPassword_inj hcon.symm)
  have hup : UpdatePassword st email newPw =
      ⟨.ok (),
        st.set (getUserPath email)
          (some (.file (.userRec { u with passwordHash := hashPassword newPw }))),
        [.getFile (getUserPath email), .updateFile (getUserPath email)]⟩ := by
    simp [UpdatePassword, GetUser, Store.GetFile, hb, hf, User.SetPassword, hne, setUser,
      Store.UpdateFile, he, User.ToJSON]
  rw [hup]
  have hdel : DeleteUser
      (Store.set st (getUserPath email)
        (some (.file (.userRec { u with passwordHash := hashPassword newPw })))) email =
      ⟨.ok (),
        (st.set (getUserPath email)
          (some (.file (.userRec { u with passwordHash := hashPassword newPw })))).set
          (getUserPath email) none,
        [.getFile (getUserPath email), .deleteFile (getUserPath email)]⟩ := by
    simp [DeleteUser, UserExists, Store.GetFile, Store.DeleteFile, hb, Store.set]
  refine ⟨rfl, ?_, ?_, ?_, ?_, ?_⟩
  · simp [AuthenticateUser, GetUser, Store.GetFile, hb, Store.set, User.GetConfirmed, hc,
      User.Authenticate, hba]
  · simp [AuthenticateUser, GetUser, Store.GetFile, hb, Store.set, User.GetConfirmed, hc,
      User.Authenticate]
  · rw [hdel]
  · rw [hdel]
    simp [UserExists, Store.GetFile, hb, Store.set]
  · rw [hdel]
    simp [GetUser, Store.GetFile, hb, Store.set]

/-- Witness for C6: the full scenario on a confirmed account,
rotating "pw" to "pw2" and then deleting the account. -/
theorem updatePassword_deleteUser_spec_witness :
    (UpdatePassword (storeWith aliceConfirmed) "a@b.co" "pw2").res = .ok () ∧
    (AuthenticateUser (UpdatePassword (storeWith aliceConfirmed) "a@b.co" "pw2").store
        "a@b.co" "pw").res = .ok false ∧
    (AuthenticateUser (UpdatePassword (storeWith aliceConfirmed) "a@b.co" "pw2").store
        "a@b.co" "pw2").res = .ok true ∧
    (DeleteUser (UpdatePassword (storeWith aliceConfirmed) "a@b.co" "pw2").store
        "a@b.co").res = .ok () ∧
    (UserExists (DeleteUser (UpdatePassword (storeWith aliceConfirmed) "a@b.co" "pw2").store
        "a@b.co").store "a@b.co").res = .ok false ∧
    (GetUser (DeleteUser (UpdatePassword (storeWith aliceConfirmed) "a@b.co" "pw2").store
        "a@b.co").store "a@b.co").res = .error (.storage .notFound) :=
  updatePassword_deleteUser_spec (storeWith aliceConfirmed) "a@b.co" "pw" "pw2"
    aliceConfirmed rfl (by decide) rfl rfl (by decide) (by decide)

/-- **C7.** For an existing account (filed under its own email) and
any token string, a successful `SetUserDongle` followed by
`GetUserDongle` on the same email returns exactly that token. -/
theorem setDongle_getDongle_roundTrip (st : Store) (email token : String) (u : User)
    (hb : st.broken = false)
    (hf : st.node (getUserPath email) = some (.file (.userRec u)))
    (he : u.email = email) :
    (SetUserDongle st email token).res = .ok () ∧
    (GetUserDongle (SetUserDongle st email token).store email).res = .ok token := by
  have hs : SetUserDongle st email token =
      ⟨.ok (), st.set (getUserPath email) (some (.file (.userRec (u.SetDongle token)))),
        [.getFile (getUserPath email), .updateFile (getUserPath email)]⟩ := by
    simp [SetUserDongle, GetUser, Store.GetFile, hb, hf, setUser, Store.UpdateFile, he,
      User.ToJSON, User.SetDongle]
  rw [hs]
  exact ⟨rfl, by
    simp [GetUserDongle, GetUser, Store.GetFile, hb, Store.set, User.GetDongle,
      User.SetDongle]⟩

/-- Witness for C7: binding "token-A" to the stored account and
reading it back returns "token-A" exactly. -/
theorem setDongle_getDongle_roundTrip_witness :
    (SetUserDongle (storeWith aliceConfirmed) "a@b.co" "token-A").res = .ok () ∧
    (GetUserDongle (SetUserDongle (storeWith aliceConfirmed) "a@b.co" "token-A").store
        "a@b.co").res = .ok "token-A" :=
  setDongle_getDongle_roundTrip (storeWith aliceConfirmed) "a@b.co" "token-A"
    aliceConfirmed rfl (by decide) rfl

/-- **C9.** Each of `UpdatePassword`, `SetUserDongle` and
`ConfirmUser`, applied to an existing account filed under its own
email, changes only its single target field in the persisted record
(the `\x7b u with ... \x7d` updates fix every other field, the email
included) and leaves every other path untouched; each fails with the
not-found outcome when the account is absent at load time; and the
`setUser` write path fails with `NotFound` when no file is present
at write time (the "vanished between read and write" race). -/
theorem singleFieldMutators_spec (st : Store) (email newPw token : String) (u : User)
    (hb : st.broken = false) :
    (st.node (getUserPath email) = some (.file (.userRec u)) → u.email = email →
      newPw ≠ "" →
      (UpdatePassword st email newPw).res = .ok () ∧
      (UpdatePassword st email newPw).store.node (getUserPath email) =
        some (.file (.userRec { u with passwordHash := hashPassword newPw })) ∧
      (∀ q, q ≠ getUserPath email →
        (UpdatePassword st email newPw).store.node q = st.node q)) ∧
    (st.node (getUserPath email) = some (.file (.userRec u)) → u.email = email →
      (SetUserDongle st email token).res = .ok () ∧
      (SetUserDongle st email token).store.node (getUserPath email) =
        some (.file (.userRec { u with dongle := token })) ∧
      (∀ q, q ≠ getUserPath email →
        (SetUserDongle st email token).store.node q = st.node q)) ∧
    (st.node (getUserPath email) = some (.file (.userRec u)) → u.email = email →
      (ConfirmUser st email).res = .ok () ∧
      (ConfirmUser st email).store.node (getUserPath email) =
        some (.file (.userRec { u with confirmed := true })) ∧
      (∀ q, q ≠ getUserPath email →
        (ConfirmUser st email).store.node q = st.node q)) ∧
    (st.node (getUserPath email) = none →
      (UpdatePassword st email newPw).res = .error (.storage .notFound) ∧
      (SetUserDongle st email token).res = .error (.storage .notFound) ∧
      (ConfirmUser st email).res = .error (.storage .notFound)) ∧
    (st.node (getUserPath u.email) = none →
      (setUser st u).res = .error (.storage .notFound) ∧ (setUser st u).store = st) := by
  refine ⟨fun hf he hne => ?_, fun hf he => ?_, fun hf he => ?_, fun h0 => ?_, fun h0 => ?_⟩
  · have hup : UpdatePassword st email newPw =
        ⟨.ok (),
          st.set (getUserPath email)
            (some (.file (.userRec { u with passwordHash := hashPassword newPw }))),
          [.getFile (getUserPath email), .updateFile (getUserPath email)]⟩ := by
      simp [UpdatePassword, GetUser, Store.GetFile, hb, hf, User.SetPassword, hne, setUser,
        Store.UpdateFile, he, User.ToJSON]
    rw [hup]
    exact ⟨rfl, by simp [Store.set], fun q hq => by simp [Store.set, hq]⟩
  · have hsd : SetUserDongle st email token =
        ⟨.ok (),
          st.set (getUserPath email) (some (.file (.userRec { u with dongle := token }))),
          [.getFile (getUserPath email), .updateFile (getUserPath email)]⟩ := by
      simp [SetUserDongle, GetUser, Store.GetFile, hb, hf, setUser, Store.UpdateFile, he,
        User.ToJSON, User.SetDongle]
    rw [hsd]
    exact ⟨rfl, by simp [Store.set], fun q hq => by simp [Store.set, hq]⟩
  · have hcf : ConfirmUser st email =
        ⟨.ok (),
          st.set (getUserPath email) (some (.file (.userRec { u with confirmed := true }))),
          [.getFile (getUserPath email), .updateFile (getUserPath email)]⟩ := by
      simp [ConfirmUser, GetUser, Store.GetFile, hb, hf, setUser, Store.UpdateFile, he,
        User.ToJSON, User.SetConfirmed]
    rw [hcf]
    exact ⟨rfl, by simp [Store.set], fun q hq => by simp [Store.set, hq]⟩
  · exact ⟨by simp [UpdatePassword, GetUser, Store.GetFile, hb, h0],
      by simp [SetUserDongle, GetUser, Store.GetFile, hb, h0],
      by simp [ConfirmUser, GetUser, Store.GetFile, hb, h0]⟩
  · exact ⟨by simp [setUser, Store.UpdateFile, hb, h0, User.ToJSON],
      by simp [setUser, Store.UpdateFile, hb, h0, User.ToJSON]⟩

/-- Witness for C9: a password rotation rewrites exactly the hash
field of the stored record; a confirm on a missing account fails
with the not-found outcome; a raw `setUser` against a store with no
file at the account's path fails with `NotFound`. -/
theorem singleFieldMutators_spec_witness :
    (UpdatePassword (storeWith aliceConfirmed) "a@b.co" "pw2").store.node
        (getUserPath "a@b.co") =
      some (.file (.userRec { aliceConfirmed with passwordHash := hashPassword "pw2" })) ∧
    (ConfirmUser baseStore "a@b.co").res = .error (.storage .notFound) ∧
    (setUser baseStore aliceConfirmed).res = .error (.storage .notFound) :=
  ⟨((singleFieldMutators_spec (storeWith aliceConfirmed) "a@b.co" "pw2" "t"
      aliceConfirmed rfl).1 (by decide) rfl (by decide)).2.1,
   ((singleFieldMutators_spec baseStore "a@b.co" "pw2" "t" aliceConfirmed rfl).2.2.2.1
      (by decide)).2.2,
   ((singleFieldMutators_spec baseStore "a@b.co" "pw2" "t" aliceConfirmed rfl).2.2.2.2
      (by decide)).1⟩

/-- `UserExists` leaves the store alone and performs exactly one
`getFile`, on every outcome. -/
theorem userExists_frame (st : Store) (email : String) :
    (UserExists st email).store = st ∧
    (UserExists st email).trace = [.getFile (getUserPath email)] := by
  cases hg : st.GetFile (getUserPath email) with
  | error e => cases e <;> simp [UserExists, hg]
  | ok item => simp [UserExists, hg]

/-- `GetUser` leaves the store alone and performs exactly one
`getFile`, on every outcome. -/
theorem getUser_frame (st : Store) (email : String) :
    (GetUser st email).store = st ∧
    (GetUser st email).trace = [.getFile (getUserPath email)] := by
  cases hg : st.GetFile (getUserPath email) with
  | error e => simp [GetUser, hg]
  | ok item => cases hd : item.data <;> simp [GetUser, hg, hd]

/-- `AuthenticateUser` leaves the store alone and performs exactly
one `getFile`, on every outcome. -/
theorem authenticateUser_frame (st : Store) (email password : String) :
    (AuthenticateUser st email password).store = st ∧
    (AuthenticateUser st email password).trace = [.getFile (getUserPath email)] := by
  cases hg : st.GetFile (getUserPath email) with
  | error e => simp [AuthenticateUser, GetUser, hg]
  | ok item =>
    cases hd : item.data <;> simp [AuthenticateUser, GetUser, hg, hd]
    split <;> simp

/-- `GetUserDongle` leaves the store alone and performs exactly one
`getFile`, on every outcome. -/
theorem getUserDongle_frame (st : Store) (email : String) :
    (GetUserDongle st email).store = st ∧
    (GetUserDongle st email).trace = [.getFile (getUserPath email)] := by
  cases hg : st.GetFile (getUserPath email) with
  | error e => simp [GetUserDongle, GetUser, hg]
  | ok item => cases hd : item.data <;> simp [GetUserDongle, GetUser, hg, hd]

/-- **C10.** The query operations `UserExists`, `GetUser`,
`AuthenticateUser` and `GetUserDongle` never mutate the store: on
every input and every outcome each issues only `getFile` calls and
returns the store it was given. -/
theorem queries_readonly (st : Store) (email password : String) :
    ((UserExists st email).store = st ∧
      (UserExists st email).trace.all Op.isGet = true) ∧
    ((GetUser st email).store = st ∧
      (GetUser st email).trace.all Op.isGet = true) ∧
    ((AuthenticateUser st email password).store = st ∧
      (AuthenticateUser st email password).trace.all Op.isGet = true) ∧
    ((GetUserDongle st email).store = st ∧
      (GetUserDongle st email).trace.all Op.isGet = true) := by
  refine ⟨⟨(userExists_frame st email).1, ?_⟩, ⟨(getUser_frame st email).1, ?_⟩,
    ⟨(authenticateUser_frame st email password).1, ?_⟩,
    ⟨(getUserDongle_frame st email).1, ?_⟩⟩
  · rw [(userExists_frame st email).2]; rfl
  · rw [(getUser_frame st email).2]; rfl
  · rw [(authenticateUser_frame st email password).2]; rfl
  · rw [(getUserDongle_frame st email).2]; rfl

/-- User paths are distinct for distinct emails. -/
theorem getUserPath_inj {a b : String} (h : getUserPath a = getUserPath b) : a = b := by
  simpa [getUserPath] using h

/-- Two user records stored at the same path are the same record. -/
theorem node_eq_userRec_inj {st : Store} {p : Path} {u u2 : User}
    (hf : st.node p = some (.file (.userRec u)))
    (h2 : st.node p = some (.file (.userRec u2))) : u2 = u := by
  rw [hf] at h2
  simpa using h2.symm

/-- A successful `GetFile` read exactly the file node at the path. -/
theorem Store.getFile_ok {st : Store} {p : Path} {item : Item}
    (h : st.GetFile p = .ok item) : st.node p = some (.file item.data) := by
  unfold Store.GetFile at h
  cases hbr : st.broken
  · simp only [hbr, Bool.false_eq_true, if_false] at h
    cases hn : st.node p with
    | none => rw [hn] at h; cases h
    | some nd =>
      cases nd with
      | dir => rw [hn] at h; cases h
      | file d => rw [hn] at h; cases h; rfl
  · simp [hbr] at h

/-- A `GetUser` that returns an account read that very record at the
user path. -/
theorem getUser_ok_node {st : Store} {email : String} {w : User}
    (h : (GetUser st email).res = .ok w) :
    st.node (getUserPath email) = some (.file (.userRec w)) := by
  cases hg : st.GetFile (getUserPath email) with
  | error e => simp [GetUser, hg] at h
  | ok item =>
    have hn := Store.getFile_ok hg
    cases hd : item.data with
    | userRec v =>
      simp only [GetUser, hg, hd] at h
      cases h
      rw [hn, hd]
    | rawStr s => simp [GetUser, hg, hd] at h
    | nonString => simp [GetUser, hg, hd] at h

/-- `setUser` either fails leaving the store alone or point-writes
the record at the user path of the record's own email. -/
theorem setUser_store_spec (st : Store) (w : User) :
    (setUser st w).store = st ∨
    (setUser st w).store = st.set (getUserPath w.email) (some (.file (.userRec w))) := by
  cases hu : st.UpdateFile (getUserPath w.email) (.userRec w) with
  | error e => left; simp [setUser, User.ToJSON, hu]
  | ok st2 =>
    right
    rw [show (setUser st w).store = st2 by simp [setUser, User.ToJSON, hu]]
    exact Store.updateFile_ok hu

/-- The store `UpdatePassword` leaves behind: unchanged, or the
record it read written back with only the hash replaced. -/
theorem updatePassword_store_spec (st : Store) (e pw : String) :
    (UpdatePassword st e pw).store = st ∨
    ∃ w, (GetUser st e).res = .ok w ∧
      (UpdatePassword st e pw).store =
        (setUser st { w with passwordHash := hashPassword pw }).store := by
  cases hg : st.GetFile (getUserPath e) with
  | error er => left; simp [UpdatePassword, GetUser, hg]
  | ok item =>
    cases hd : item.data with
    | userRec v =>
      by_cases hpw : pw = ""
      · left; simp [UpdatePassword, GetUser, hg, hd, User.SetPassword, hpw]
      · right
        exact ⟨v, by simp [GetUser, hg, hd],
          by simp [UpdatePassword, GetUser, hg, hd, User.SetPassword, hpw]⟩
    | rawStr s => left; simp [UpdatePassword, GetUser, hg, hd]
    | nonString => left; simp [UpdatePassword, GetUser, hg, hd]

/-- The store `SetUserDongle` leaves behind: unchanged, or the
record it read written back with only the dongle replaced. -/
theorem setUserDongle_store_spec (st : Store) (e d : String) :
    (SetUserDongle st e d).store = st ∨
    ∃ w, (GetUser st e).res = .ok w ∧
      (SetUserDongle st e d).store = (setUser st (w.SetDongle d)).store := by
  cases hg : st.GetFile (getUserPath e) with
  | error er => left; simp [SetUserDongle, GetUser, hg]
  | ok item =>
    cases hd : item.data with
    | userRec v =>
      right
      exact ⟨v, by simp [GetUser, hg, hd], by simp [SetUserDongle, GetUser, hg, hd]⟩
    | rawStr s => left; simp [SetUserDongle, GetUser, hg, hd]
    | nonString => left; simp [SetUserDongle, GetUser, hg, hd]

/-- The store `ConfirmUser` leaves behind: unchanged, or the record
it read written back with the confirmed flag set. -/
theorem confirmUser_store_spec (st : Store) (e : String) :
    (ConfirmUser st e).store = st ∨
    ∃ w, (GetUser st e).res = .ok w ∧
      (ConfirmUser st e).store = (setUser st w.SetConfirmed).store := by
  cases hg : st.GetFile (getUserPath e) with
  | error er => left; simp [ConfirmUser, GetUser, hg]
  | ok item =>
    cases hd : item.data with
    | userRec v =>
      right
      exact ⟨v, by simp [GetUser, hg, hd], by simp [ConfirmUser, GetUser, hg, hd]⟩
    | rawStr s => left; simp [ConfirmUser, GetUser, hg, hd]
    | nonString => left; simp [ConfirmUser, GetUser, hg, hd]

/-- The store `DeleteUser` leaves behind: unchanged, or with the
node at the user path removed. -/
theorem deleteUser_store_spec (st : Store) (e : String) :
    (DeleteUser st e).store = st ∨
    (DeleteUser st e).store = st.set (getUserPath e) none := by
  cases hg : st.GetFile (getUserPath e) with
  | error er => cases er <;> simp [DeleteUser, UserExists, hg]
  | ok item =>
    cases hd : st.DeleteFile (getUserPath e) with
    | error er => left; simp [DeleteUser, UserExists, hg, hd]
    | ok st2 =>
      right
      rw [show (DeleteUser st e).store = st2 by simp [DeleteUser, UserExists, hg, hd]]
      exact Store.deleteFile_ok hd

/-- A successful `CreateDir` never disturbs an existing file node. -/
theorem node_file_preserved_createDir {st st2 : Store} {q p : Path} {d : FileData}
    (h : st.CreateDir q = .ok st2) (hp : st.node p = some (.file d)) :
    st2.node p = some (.file d) := by
  rcases Store.createDir_ok h with rfl | ⟨hn, rfl⟩
  · exact hp
  · rw [Store.node_set]
    by_cases hq : p = q
    · subst hq; rw [hp] at hn; cases hn
    · rw [if_neg hq]; exact hp

/-- A successful `CreateFile` never disturbs an existing file node
(it only writes where nothing was). -/
theorem node_file_preserved_createFile {st st2 : Store} {q p : Path} {d d2 : FileData}
    (h : st.CreateFile q d2 = .ok st2) (hp : st.node p = some (.file d)) :
    st2.node p = some (.file d) := by
  obtain ⟨hn, rfl⟩ := Store.createFile_ok h
  by_cases hq : p = q
  · subst hq; rw [hp] at hn; cases hn
  · rw [Store.node_set, if_neg hq]; exact hp

/-- `CreateUser` never disturbs an existing file node, whatever it
does. -/
theorem createUser_node_preserved {st : Store} {e pw : String} {p : Path} {d : FileData}
    (hp : st.node p = some (.file d)) :
    (CreateUser st e pw).store.node p = some (.file d) := by
  cases hg : st.GetFile (getUserPath e) with
  | ok item => simp [CreateUser, UserExists, hg, hp]
  | error er =>
    cases er with
    | alreadyExists => simp [CreateUser, UserExists, hg, hp]
    | parentMissing => simp [CreateUser, UserExists, hg, hp]
    | backendUnavailable => simp [CreateUser, UserExists, hg, hp]
    | notFound =>
      cases hnu : NewUser e pw with
      | error u => simp [CreateUser, UserExists, hg, hnu, hp]
      | ok user =>
        cases h1 : st.CreateDir ["home"] with
        | error er1 => simp [CreateUser, UserExists, hg, hnu, h1, hp]
        | ok st2 =>
          have hp2 := node_file_preserved_createDir h1 hp
          cases h2 : st2.CreateDir ["home", "users"] with
          | error er2 => simp [CreateUser, UserExists, hg, hnu, h1, h2, hp2]
          | ok st3 =>
            have hp3 := node_file_preserved_createDir h2 hp2
            cases h3 : st3.CreateFile (getUserPath e) user.ToJSON with
            | error er3 => simp [CreateUser, UserExists, hg, hnu, h1, h2, h3, hp3]
            | ok st4 =>
              rw [show (CreateUser st e pw).store = st4 by
                simp [CreateUser, UserExists, hg, hnu, h1, h2, h3]]
              exact node_file_preserved_createFile h3 hp3

/-- Writing back a record read from a well-filed store cannot lower
the confirmed flag of any stored account: either the write lands on
the very account (whose record was the one read, so the flag is
preserved or raised), or it lands elsewhere. -/
theorem written_confirmed_preserved {st : Store} {e email : String} {u u2 w w2 : User}
    (hwf : WellFiled st)
    (hf : st.node (getUserPath email) = some (.file (.userRec u)))
    (hc : u.confirmed = true)
    (hw : (GetUser st e).res = .ok w)
    (hwe : w2.email = w.email)
    (hwc : w2.confirmed = w.confirmed ∨ w2.confirmed = true)
    (h2 : (st.set (getUserPath w2.email) (some (.file (.userRec w2)))).node
      (getUserPath email) = some (.file (.userRec u2))) :
    u2.confirmed = true := by
  have hn := getUser_ok_node hw
  have hwee : w.email = e := hwf e w hn
  rw [Store.node_set] at h2
  by_cases hq : getUserPath email = getUserPath w2.email
  · rw [if_pos hq] at h2
    have hu2 : u2 = w2 := by simpa using h2.symm
    have hee : email = w2.email := getUserPath_inj hq
    have huw : w = u := by
      refine node_eq_userRec_inj hf ?_
      rw [← hn, hee, hwe, hwee]
    rcases hwc with hcc | hcc
    · rw [hu2, hcc, huw, hc]
    · rw [hu2, hcc]
  · rw [if_neg hq] at h2
    rw [node_eq_userRec_inj hf h2, hc]

/-- **C8.** On a well-filed store (records filed under their own
email, the layout the service itself creates and maintains), once an
account's persisted confirmed flag is true, no account-service
operation — `CreateUser`, `AuthenticateUser`, `UpdatePassword`,
`SetUserDongle`, `GetUserDongle`, `ConfirmUser`, `DeleteUser`,
`UserExists` or `GetUser`, with any arguments — ever leaves a record
at that account's path whose confirmed flag is false: the
unconfirmed-to-confirmed transition is one-way and `Confirmed` is
terminal (deletion removes the record rather than reverting it). -/
theorem confirmed_is_terminal (a : Action) (st : Store) (email : String) (u : User)
    (hwf : WellFiled st)
    (hf : st.node (getUserPath email) = some (.file (.userRec u)))
    (hc : u.confirmed = true) :
    ∀ u2, (a.run st).node (getUserPath email) = some (.file (.userRec u2)) →
      u2.confirmed = true := by
  intro u2 h2
  cases a with
  | userExists e =>
    rw [show Action.run (.userExists e) st = (UserExists st e).store from rfl,
      (userExists_frame st e).1] at h2
    rw [node_eq_userRec_inj hf h2, hc]
  | getUser e =>
    rw [show Action.run (.getUser e) st = (GetUser st e).store from rfl,
      (getUser_frame st e).1] at h2
    rw [node_eq_userRec_inj hf h2, hc]
  | authenticateUser e pw =>
    rw [show Action.run (.authenticateUser e pw) st = (AuthenticateUser st e pw).store
        from rfl,
      (authenticateUser_frame st e pw).1] at h2
    rw [node_eq_userRec_inj hf h2, hc]
  | getUserDongle e =>
    rw [show Action.run (.getUserDongle e) st = (GetUserDongle st e).store from rfl,
      (getUserDongle_frame st e).1] at h2
    rw [node_eq_userRec_inj hf h2, hc]
  | createUser e pw =>
    rw [show Action.run (.createUser e pw) st = (CreateUser st e pw).store from rfl] at h2
    rw [node_eq_userRec_inj (createUser_node_preserved hf) h2, hc]
  | deleteUser e =>
    rw [show Action.run (.deleteUser e) st = (DeleteUser st e).store from rfl] at h2
    rcases deleteUser_store_spec st e with hs | hs
    · rw [hs] at h2
      rw [node_eq_userRec_inj hf h2, hc]
    · rw [hs, Store.node_set] at h2
      by_cases hq : getUserPath email = getUserPath e
      · rw [if_pos hq] at h2; cases h2
      · rw [if_neg hq] at h2
        rw [node_eq_userRec_inj hf h2, hc]
  | updatePassword e pw =>
    rw [show Action.run (.updatePassword e pw) st = (UpdatePassword st e pw).store
        from rfl] at h2
    rcases updatePassword_store_spec st e pw with hs | ⟨w, hw, hs⟩
    · rw [hs] at h2
      rw [node_eq_userRec_inj hf h2, hc]
    · rw [hs] at h2
      rcases setUser_store_spec st { w with passwordHash := hashPassword pw } with h3 | h3
      · rw [h3] at h2
        rw [node_eq_userRec_inj hf h2, hc]
      · rw [h3] at h2
        exact @written_confirmed_preserved st e email u u2 w
          { w with passwordHash := hashPassword pw } hwf hf hc hw rfl (Or.inl rfl) h2
  | setUserDongle e d =>
    rw [show Action.run (.setUserDongle e d) st = (SetUserDongle st e d).store
        from rfl] at h2
    rcases setUserDongle_store_spec st e d with hs | ⟨w, hw, hs⟩
    · rw [hs] at h2
      rw [node_eq_userRec_inj hf h2, hc]
    · rw [hs] at h2
      rcases setUser_store_spec st (w.SetDongle d) with h3 | h3
      · rw [h3] at h2
        rw [node_eq_userRec_inj hf h2, hc]
      · rw [h3] at h2
        exact @written_confirmed_preserved st e email u u2 w (w.SetDongle d) hwf hf hc hw
          rfl (Or.inl rfl) h2
  | confirmUser e =>
    rw [show Action.run (.confirmUser e) st = (ConfirmUser st e).store from rfl] at h2
    rcases confirmUser_store_spec st e with hs | ⟨w, hw, hs⟩
    · rw [hs] at h2
      rw [node_eq_userRec_inj hf h2, hc]
    · rw [hs] at h2
      rcases setUser_store_spec st w.SetConfirmed with h3 | h3
      · rw [h3] at h2
        rw [node_eq_userRec_inj hf h2, hc]
      · rw [h3] at h2
        exact @written_confirmed_preserved st e email u u2 w w.SetConfirmed hwf hf hc hw
          rfl (Or.inr rfl) h2

/-- The single-account fixture stores are well-filed. -/
theorem wellFiled_storeWith (u : User) : WellFiled (storeWith u) := by
  intro e w h
  rw [show (storeWith u).node (getUserPath e) =
      if getUserPath e = getUserPath u.email
      then some (.file (.userRec u)) else baseStore.node (getUserPath e) from rfl] at h
  by_cases hq : getUserPath e = getUserPath u.email
  · rw [if_pos hq] at h
    have : w = u := by simpa using h.symm
    rw [this, getUserPath_inj hq]
  · rw [if_neg hq] at h
    rw [show baseStore.node (getUserPath e) =
        if getUserPath e = ["home"] then some .dir
        else if getUserPath e = ["home", "users"] then some .dir else none from rfl] at h
    by_cases h1 : getUserPath e = ["home"]
    · rw [if_pos h1] at h; cases h
    · rw [if_neg h1] at h
      by_cases h2 : getUserPath e = ["home", "users"]
      · rw [if_pos h2] at h; cases h
      · rw [if_neg h2] at h; cases h

/-- Witness for C8: a password rotation on a well-filed store
holding a confirmed account leaves a record at that account's path,
and its confirmed flag is still true. -/
theorem confirmed_is_terminal_witness :
    ((Action.updatePassword "a@b.co" "pw2").run (storeWith aliceConfirmed)).node
        (getUserPath "a@b.co") =
      some (.file (.userRec { aliceConfirmed with passwordHash := hashPassword "pw2" })) ∧
    ({ aliceConfirmed with passwordHash := hashPassword "pw2" } : User).confirmed = true :=
  ⟨by decide,
   confirmed_is_terminal (.updatePassword "a@b.co" "pw2") (storeWith aliceConfirmed)
     "a@b.co" aliceConfirmed (wellFiled_storeWith aliceConfirmed) (by decide) rfl
     { aliceConfirmed with passwordHash := hashPassword "pw2" } (by decide)⟩

end TouchCalc
